import Mathlib

/-
Verification of the JIT compilation orchestrator (compiler/jit/jit_compiler.cc).

The file embeds the configuration resolver (JitCompiler::ParseCompilerOptions),
the facade lifecycle (JitCompiler constructor, jit_update_options) and the per
method compile path (JitCompiler::CompileMethod) as executable Lean functions.
Option tokens are modelled as character lists, matching the byte level prefix
tests the source performs with StringPiece. External collaborators that live
outside this translation unit (InstructionSetFeatures, the generic structured
option parser of CompilerOptions, CompilerDriver, the code cache) are modelled
from the specification; each such definition carries a doc comment saying so.
-/

deriving instance DecidableEq for Except

/-- Characters of a string literal, used to model C string tokens as character
lists. -/
def str (s : String) : List Char := s.data

/-- Boolean test that the first list is a leading segment of the second,
modelling the StringPiece starts_with test used by the source. -/
def hasPfx : List Char → List Char → Bool
  | [], _ => true
  | _ :: _, [] => false
  | p :: ps, c :: cs => p == c && hasPfx ps cs

/-- Instruction set identifiers from arch instruction_set.h (the subset the
JIT cares about). -/
inductive InstructionSet where
  | arm
  | arm64
  | thumb2
  | x86
  | x86_64
  deriving DecidableEq, Repr

/-- Modelled from the spec: an instruction set feature set is a baseline
variant name plus an overlay of explicitly toggled capability flags
(InstructionSetFeatures itself is outside src). -/
structure FeatureSet where
  variant : List Char
  flags : List (List Char)
  deriving DecidableEq, Repr

/-- Modelled from the spec: the external InstructionSetFeatures operations.
FromVariant builds a baseline feature set from a variant name and yields none
for a malformed variant; AddFeaturesFromString overlays a feature string onto
an existing set and yields none when the string is malformed; FromCppDefines
probes the capabilities of the host build. -/
structure FeaturesEnv where
  fromVariant : InstructionSet → List Char → Option FeatureSet
  addFeatures : FeatureSet → List Char → Option FeatureSet
  fromCppDefines : FeatureSet

/-- The compiler configuration fields touched by the resolver, mirroring the
CompilerOptions fields the source reads and writes. -/
structure CompilerOptions where
  instruction_set : InstructionSet
  instruction_set_features : Option FeatureSet
  debuggable : Bool
  use_position_independent_code : Bool
  inline_max_code_units : Int
  generate_debug_info : Bool
  compiling_with_core_image : Bool
  deriving DecidableEq, Repr

/-- The host runtime state the resolver consults: the raw option tokens, the
live debuggability flag, the image location and the resident ISA. -/
structure Runtime where
  compilerOptions : List (List Char)
  isJavaDebuggable : Bool
  imageLocation : List Char
  runtimeISA : InstructionSet
  deriving DecidableEq, Repr

/-- Prefix scanned for at line 77 of the source. -/
def pfxVariant : List Char := str "--instruction-set-variant="

/-- Prefix scanned for at line 85 of the source. -/
def pfxFeatures : List Char := str "--instruction-set-features="

/-- Recognized key of the modelled structured parser carrying a numeric
value. -/
def pfxInline : List Char := str "--inline-max-code-units="

/-- A token is special when the bespoke feature scan of the source reacts to
it. -/
def specialTok (t : List Char) : Bool :=
  hasPfx pfxVariant t || hasPfx pfxFeatures t

/-- Modelled from the spec: numeric option values are unsigned decimal
integers; none when malformed. -/
def digitsToNat? (l : List Char) : Option Nat :=
  if l ≠ [] ∧ l.all Char.isDigit then
    some (l.foldl (fun n c => 10 * n + (c.toNat - 48)) 0)
  else none

/-- Modelled from the spec: one step of the generic structured parser
(CompilerOptions::ParseCompilerOptions lives outside src). Recognized tokens
update their field; a recognized token with a malformed value fails the parse;
an unrecognized token fails the parse exactly when unrecognized tokens are not
ignored. The debuggable token follows the presence or absence form of the
spec, section 8. -/
def parseToken (ignoreUnrecognized : Bool) (cfg : CompilerOptions) (t : List Char) :
    Option CompilerOptions :=
  if t = str "--debuggable" then some { cfg with debuggable := true }
  else if t = str "--generate-debug-info" then some { cfg with generate_debug_info := true }
  else if t = str "--pic" then some { cfg with use_position_independent_code := true }
  else if hasPfx pfxInline t then
    match digitsToNat? (t.drop pfxInline.length) with
    | some n => some { cfg with inline_max_code_units := (n : Int) }
    | none => none
  else if ignoreUnrecognized then some cfg else none

/-- Modelled from the spec: the generic structured parser folded over the token
sequence; a failing token fails the whole parse. -/
def parseBaselineTokens (ignoreUnrecognized : Bool) (cfg : CompilerOptions) :
    List (List Char) → Option CompilerOptions
  | [] => some cfg
  | t :: ts =>
    match parseToken ignoreUnrecognized cfg t with
    | none => none
    | some c => parseBaselineTokens ignoreUnrecognized c ts

/-- A token whose failure is fatal to the modelled structured parse even with
unrecognized tokens ignored: a recognized numeric key with a malformed
value. -/
def tokenFatal (t : List Char) : Bool :=
  hasPfx pfxInline t && (digitsToNat? (t.drop pfxInline.length)).isNone

/-- Aliasing rule of the source: the 32 bit arm family is configured as its
thumb2 variant. -/
def thumb2Alias (isa : InstructionSet) : InstructionSet :=
  if isa == InstructionSet.arm then InstructionSet.thumb2 else isa

/-- Debug assertion at lines 68 to 72 of the source: on an arm runtime the
configured instruction set must be thumb2, otherwise it must equal the runtime
ISA. -/
def isaDcheckOk (cfg : CompilerOptions) (rt : Runtime) : Bool :=
  if rt.runtimeISA == InstructionSet.arm then
    cfg.instruction_set == InstructionSet.thumb2
  else
    cfg.instruction_set == rt.runtimeISA

/-- Modelled from the spec: CompilerDriver::IsCoreImageFilename (outside src)
tests the image path against a naming convention. -/
def IsCoreImageFilename (loc : List Char) : Bool :=
  (str "core.art").isSuffixOf loc

/-- Default inline budget injected at line 47 of the source before the
structured parse runs. -/
def kDefaultInlineMaxCodeUnits : Int := 32

/-- Step one of the resolver: inject the default inline budget before the
structured parse. -/
def setInlineDefault (cfg : CompilerOptions) : CompilerOptions :=
  { cfg with inline_max_code_units := kDefaultInlineMaxCodeUnits }

/-- Outcomes on which a resolver run fails to complete normally: the fatal
baseline parse abort at line 54, a null dereference in the feature scan when
the implicit default baseline itself fails to build at lines 88 to 96, and a
failing debug assertion on the instruction set at lines 68 to 72. -/
inductive ResolveError where
  | fatalParse
  | nullFeatures
  | dcheckISA
  deriving DecidableEq, Repr

/-- The bespoke feature token scan at lines 73 to 101 of the source. The
accumulator mirrors the unique_ptr: a variant token overwrites it with the
FromVariant result, which is none for a malformed variant; a features token
first installs the implicit default baseline when the accumulator is null,
then overwrites the accumulator with the AddFeaturesFromString result, which
is none for a malformed feature string. When the default baseline itself fails
to build, the source dereferences a null pointer, modelled as the nullFeatures
error. -/
def scanFeatures (env : FeaturesEnv) (isa : InstructionSet) :
    List (List Char) → Option FeatureSet → Except ResolveError (Option FeatureSet)
  | [], acc => .ok acc
  | t :: ts, acc =>
    if hasPfx pfxVariant t then
      scanFeatures env isa ts (env.fromVariant isa (t.drop pfxVariant.length))
    else if hasPfx pfxFeatures t then
      let s := t.drop pfxFeatures.length
      let acc1 := if acc.isNone then env.fromVariant isa (str "default") else acc
      match acc1 with
      | none => .error .nullFeatures
      | some fs => scanFeatures env isa ts (env.addFeatures fs s)
    else
      scanFeatures env isa ts acc

/-- Steps at lines 58 to 65 of the source, applied to the configuration the
structured parse produced: force non PIC unconditionally, then inherit
debuggability from the live runtime state exactly when the held flag is
false. -/
def postParse (rt : Runtime) (c : CompilerOptions) : CompilerOptions :=
  let cfg2 := { c with use_position_independent_code := false }
  if cfg2.debuggable then cfg2 else { cfg2 with debuggable := rt.isJavaDebuggable }

/-- Steps at lines 102 to 107 of the source: install the scanned feature set,
falling back to the host build capabilities when the scan ended without one,
and derive the core image flag. -/
def installFeatures (env : FeaturesEnv) (rt : Runtime) (cfg3 : CompilerOptions)
    (acc : Option FeatureSet) : CompilerOptions :=
  { cfg3 with
    instruction_set_features := some (acc.getD env.fromCppDefines),
    compiling_with_core_image := IsCoreImageFilename rt.imageLocation }

/-- JitCompiler::ParseCompilerOptions from the source, as a function from the
held configuration to the resolved configuration: inject the inline default,
run the structured parse with unrecognized tokens ignored (fatal on failure),
force non PIC, inherit debuggability from the runtime when the parsed flag is
false, check the instruction set assertion, run the feature token scan, fall
back to the host build capabilities when the scan ends without a feature set,
and derive the core image flag. -/
def ParseCompilerOptions (env : FeaturesEnv) (rt : Runtime) (cfg0 : CompilerOptions) :
    Except ResolveError CompilerOptions :=
  match parseBaselineTokens true (setInlineDefault cfg0) rt.compilerOptions with
  | none => .error .fatalParse
  | some cfgP =>
    if isaDcheckOk (postParse rt cfgP) rt then
      match scanFeatures env (postParse rt cfgP).instruction_set rt.compilerOptions none with
      | .error e => .error e
      | .ok acc => .ok (installFeatures env rt (postParse rt cfgP) acc)
    else .error .dcheckISA

/-- Modelled from the spec: a freshly constructed CompilerOptions object (the
constructor is outside src) starts with the thumb2 aliased runtime ISA, no
feature set, and all flags at their inert defaults. -/
def initialConfig (hostISA : InstructionSet) : CompilerOptions :=
  { instruction_set := thumb2Alias hostISA
    instruction_set_features := none
    debuggable := false
    use_position_independent_code := false
    inline_max_code_units := -1
    generate_debug_info := false
    compiling_with_core_image := false }

/-- Compiler tiers as named by the backend binding. -/
inductive CompilerKind where
  | quick
  | optimizing
  deriving DecidableEq, Repr

/-- The backend binding state the facade constructs. -/
structure CompilerDriver where
  kind : CompilerKind
  threadCount : Nat
  swapFd : Int
  dedupeEnabled : Bool
  deriving DecidableEq, Repr

/-- Modelled from the spec: the CompilerDriver constructor (outside src)
starts with artifact deduplication enabled; the facade has to switch it off
explicitly. -/
def mkCompilerDriver (kind : CompilerKind) (threadCount : Nat) (swapFd : Int) :
    CompilerDriver :=
  { kind := kind, threadCount := threadCount, swapFd := swapFd, dedupeEnabled := true }

/-- The diagnostics log owned by the facade when debug info generation is on. -/
structure JitLogger where
  opened : Bool
  deriving DecidableEq, Repr

/-- The facade state: the held configuration, the backend binding and the
optional diagnostics log. -/
structure JitCompiler where
  compiler_options : CompilerOptions
  compiler_driver : CompilerDriver
  jit_logger : Option JitLogger
  deriving DecidableEq, Repr

/-- JitCompiler constructor from the source: resolve the options from a fresh
configuration, open the diagnostics log when debug info generation ended up
enabled, then build the backend binding with the optimizing kind, one thread,
no swap file, and deduplication switched off. -/
def JitCompiler.create (env : FeaturesEnv) (rt : Runtime) :
    Except ResolveError JitCompiler :=
  match ParseCompilerOptions env rt (initialConfig rt.runtimeISA) with
  | .error e => .error e
  | .ok cfg =>
    let driver0 := mkCompilerDriver CompilerKind.optimizing 1 (-1)
    let driver := { driver0 with dedupeEnabled := false }
    .ok { compiler_options := cfg
          compiler_driver := driver
          jit_logger := if cfg.generate_debug_info then some { opened := true } else none }

/-- jit_update_options from the source: rerun ParseCompilerOptions in place on
the held configuration. -/
def jit_update_options (env : FeaturesEnv) (rt : Runtime) (jc : JitCompiler) :
    Except ResolveError JitCompiler :=
  match ParseCompilerOptions env rt jc.compiler_options with
  | .error e => .error e
  | .ok cfg =>
    .ok { jc with
          compiler_options := cfg
          jit_logger := if cfg.generate_debug_info then some { opened := true } else jc.jit_logger }

/-- A method handle with the fields the compile path asserts about. -/
structure Method where
  isProxyMethod : Bool
  declaringClassResolved : Bool
  deriving DecidableEq, Repr

/-- The calling execution context of a compile request. -/
structure Thread where
  hasPendingException : Bool
  deriving DecidableEq, Repr

/-- Opaque handle to the externally owned method code cache. -/
structure JitCodeCache where
  id : Nat
  deriving DecidableEq, Repr

/-- Opaque handle to the JIT arena pool whose maps get trimmed. -/
structure ArenaPool where
  id : Nat
  deriving DecidableEq, Repr

/-- The runtime state the compile path consults. -/
structure RuntimeJit where
  jitCodeCache : JitCodeCache
  jitArenaPool : ArenaPool
  deriving DecidableEq, Repr

/-- The external code generation backend: JitCompile takes the context, the
code cache, the method, the baseline tier flag, the OSR flag and the
diagnostics log, and reports success. -/
structure Backend where
  jitCompile : Thread → JitCodeCache → Method → Bool → Bool → Option JitLogger → Bool

/-- Observable effects of one compile call, in program order. -/
inductive JitEvent where
  | jitCompileCall (self : Thread) (cache : JitCodeCache) (m : Method)
      (baseline : Bool) (osr : Bool) (lg : Option JitLogger)
  | trimMapsCall (self : Thread) (pool : ArenaPool)
  | addTimingLoggerCall (phases : List (List Char))
  deriving DecidableEq, Repr

/-- Per call timing logger from the source; ScopedTiming blocks append their
phase name. -/
structure TimingLogger where
  phases : List (List Char)
  deriving DecidableEq, Repr

/-- JitCompiler::CompileMethod from the source: a Compiling phase delegating
to the backend with baseline false, the code cache and the held diagnostics
log, then an unconditional TrimMaps phase on the same thread, then the logger
is handed to the process wide timing aggregator, and the backend verdict is
returned. The event list records the calls in order. -/
def CompileMethod (be : Backend) (jc : JitCompiler) (rt : RuntimeJit)
    (self : Thread) (m : Method) (osr : Bool) : Bool × List JitEvent :=
  let logger : TimingLogger := { phases := [] }
  let logger := { logger with phases := logger.phases ++ [str "Compiling"] }
  let code_cache := rt.jitCodeCache
  let success := be.jitCompile self code_cache m false osr jc.jit_logger
  let ev1 := JitEvent.jitCompileCall self code_cache m false osr jc.jit_logger
  let logger := { logger with phases := logger.phases ++ [str "TrimMaps"] }
  let ev2 := JitEvent.trimMapsCall self rt.jitArenaPool
  let ev3 := JitEvent.addTimingLoggerCall logger.phases
  (success, [ev1, ev2, ev3])

/-- Test for the backend invocation event. -/
def isBackendCall : JitEvent → Bool
  | .jitCompileCall _ _ _ _ _ _ => true
  | _ => false

/-- Modelled from the spec: entry allocation in the method code cache. With
deduplication on, byte identical code reuses the existing entry; with
deduplication off, a fresh independent entry is always appended. Returns the
new entry list and the index of the entry used. -/
def cacheInsert (dedupeEnabled : Bool) (entries : List (List Nat)) (code : List Nat) :
    List (List Nat) × Nat :=
  if dedupeEnabled then
    match entries.indexOf? code with
    | some i => (entries, i)
    | none => (entries ++ [code], entries.length)
  else (entries ++ [code], entries.length)

/-- Concrete feature environment used for witnesses and counterexamples:
three known variants, two known feature flags, everything else malformed. -/
def sampleEnv : FeaturesEnv :=
  { fromVariant := fun _ v =>
      if v = str "default" ∨ v = str "silvermont" ∨ v = str "kryo" then
        some { variant := v, flags := [] }
      else none
    addFeatures := fun fs x =>
      if x = str "sse4.1" ∨ x = str "div" then
        some { fs with flags := fs.flags ++ [x] }
      else none
    fromCppDefines := { variant := str "host", flags := [] } }

/-- Runtime with no relevant tokens on a debuggable x86 host. -/
def rtEmpty : Runtime :=
  { compilerOptions := []
    isJavaDebuggable := true
    imageLocation := str "/system/framework/boot.art"
    runtimeISA := InstructionSet.x86 }

/-- Runtime used to refute retention of earlier feature contributions: a valid
variant token followed by a malformed features token. -/
def rtC1 : Runtime :=
  { compilerOptions :=
      [str "--instruction-set-variant=silvermont", str "--instruction-set-features=badfeat"]
    isJavaDebuggable := false
    imageLocation := str "/system/framework/boot.art"
    runtimeISA := InstructionSet.x86 }

/-- Runtime for the salvage scenario: an unrecognized token, a malformed
variant token, then a valid features token. -/
def rtSalvage : Runtime :=
  { compilerOptions :=
      [str "--frobnicate", str "--instruction-set-variant=bogus",
       str "--instruction-set-features=sse4.1"]
    isJavaDebuggable := false
    imageLocation := str "/system/framework/boot.art"
    runtimeISA := InstructionSet.x86 }

/-- Runtime whose host is live debuggable, with no tokens. -/
def rtDebugOn : Runtime :=
  { compilerOptions := []
    isJavaDebuggable := true
    imageLocation := str "/system/framework/boot.art"
    runtimeISA := InstructionSet.x86 }

/-- Runtime whose host is not live debuggable, with no tokens. -/
def rtDebugOff : Runtime :=
  { compilerOptions := []
    isJavaDebuggable := false
    imageLocation := str "/system/framework/boot.art"
    runtimeISA := InstructionSet.x86 }

/-- Runtime requesting position independent code. -/
def rtPic : Runtime :=
  { compilerOptions := [str "--pic"]
    isJavaDebuggable := false
    imageLocation := str "/system/framework/boot.art"
    runtimeISA := InstructionSet.x86_64 }

/-- Runtime on a 32 bit arm host with no tokens. -/
def rtArm : Runtime :=
  { compilerOptions := []
    isJavaDebuggable := false
    imageLocation := str "/system/framework/boot.art"
    runtimeISA := InstructionSet.arm }

/-- Runtime carrying only an unrecognized token and a malformed variant
token. -/
def rtUnknownTok : Runtime :=
  { compilerOptions := [str "--frobnicate", str "--instruction-set-variant=bogus"]
    isJavaDebuggable := false
    imageLocation := str "/system/framework/boot.art"
    runtimeISA := InstructionSet.x86 }

/-- Runtime whose only relevant token is a malformed variant token, so that
every feature contribution is dropped. -/
def rtAllMalformed : Runtime :=
  { compilerOptions := [str "--instruction-set-variant=bogus"]
    isJavaDebuggable := false
    imageLocation := str "/system/framework/boot.art"
    runtimeISA := InstructionSet.x86 }

/-- Configuration resolved from rtPic, used as the concrete witness value. -/
def cfgPic : CompilerOptions :=
  (ParseCompilerOptions sampleEnv rtPic (initialConfig InstructionSet.x86_64)).toOption.getD
    (initialConfig InstructionSet.x86_64)

/-- Configuration resolved from rtAllMalformed, used as the concrete witness
value. -/
def cfgAllMalformed : CompilerOptions :=
  (ParseCompilerOptions sampleEnv rtAllMalformed (initialConfig InstructionSet.x86)).toOption.getD
    (initialConfig InstructionSet.x86)

/-- Fallback facade value for extracting create results in witnesses. -/
def jcDefault : JitCompiler :=
  { compiler_options := initialConfig InstructionSet.x86
    compiler_driver := mkCompilerDriver CompilerKind.optimizing 1 (-1)
    jit_logger := none }

/-- Facade created on rtDebugOn, used as the concrete witness value. -/
def jcDebugOn : JitCompiler :=
  (JitCompiler.create sampleEnv rtDebugOn).toOption.getD jcDefault

/-- Configuration resolved from rtDebugOn starting from a fresh
configuration, used as the concrete witness value. -/
def cfgDebugOn : CompilerOptions :=
  (ParseCompilerOptions sampleEnv rtDebugOn (initialConfig InstructionSet.x86)).toOption.getD
    (initialConfig InstructionSet.x86)

/-- Configuration resolved from rtSalvage, used as the concrete witness
value. -/
def cfgSalvage : CompilerOptions :=
  (ParseCompilerOptions sampleEnv rtSalvage (initialConfig InstructionSet.x86)).toOption.getD
    (initialConfig InstructionSet.x86)

/-- Runtime whose tokens are a malformed variant token followed by two valid
features tokens, used to refute the containment form of the salvage claim. -/
def rtTwoFeatures : Runtime :=
  { compilerOptions :=
      [str "--instruction-set-variant=bogus", str "--instruction-set-features=sse4.1",
       str "--instruction-set-features=div"]
    isJavaDebuggable := false
    imageLocation := str "/system/framework/boot.art"
    runtimeISA := InstructionSet.x86 }

theorem hasPfx_self_append (p r : List Char) : hasPfx p (p ++ r) = true := by
  induction p with
  | nil => rfl
  | cons c cs ih => simp [hasPfx, ih]

theorem hasPfx_append_of_le (p q r : List Char) (h : p.length ≤ q.length) :
    hasPfx p (q ++ r) = hasPfx p q := by
  induction p generalizing q with
  | nil => cases q <;> rfl
  | cons c cs ih =>
    cases q with
    | nil => simp at h
    | cons b bs =>
      simp only [List.cons_append, hasPfx]
      congr 1
      exact ih bs (by simpa using h)

theorem hasPfx_drop (p : List Char) : ∀ s : List Char, hasPfx p s = true →
    s = p ++ s.drop p.length := by
  induction p with
  | nil => intro s _; simp
  | cons c cs ih =>
    intro s h
    cases s with
    | nil => simp [hasPfx] at h
    | cons b bs =>
      simp only [hasPfx, Bool.and_eq_true, beq_iff_eq] at h
      obtain ⟨h1, h2⟩ := h
      subst h1
      simpa using ih bs h2

theorem drop_len_append (p r : List Char) : (p ++ r).drop p.length = r := by
  simp

theorem scanFeatures_skip (env : FeaturesEnv) (isa : InstructionSet)
    (ts : List (List Char)) (acc : Option FeatureSet)
    (h : ∀ t ∈ ts, specialTok t = false) :
    scanFeatures env isa ts acc = .ok acc := by
  induction ts with
  | nil => rfl
  | cons t ts ih =>
    have ht := h t (by simp)
    simp only [specialTok, Bool.or_eq_false_iff] at ht
    simp [scanFeatures, ht.1, ht.2, ih fun x hx => h x (by simp [hx])]

theorem scanFeatures_append (env : FeaturesEnv) (isa : InstructionSet)
    (l1 l2 : List (List Char)) (acc : Option FeatureSet) :
    scanFeatures env isa (l1 ++ l2) acc =
      match scanFeatures env isa l1 acc with
      | .ok a => scanFeatures env isa l2 a
      | .error e => .error e := by
  induction l1 generalizing acc with
  | nil => simp [scanFeatures]
  | cons t ts ih =>
    by_cases h1 : hasPfx pfxVariant t = true
    · simp [scanFeatures, h1, ih]
    · by_cases h2 : hasPfx pfxFeatures t = true
      · simp only [List.cons_append, scanFeatures, h1, h2]
        cases hacc : (if acc.isNone = true then env.fromVariant isa (str "default") else acc) with
        | none => simp
        | some fs => simp [ih]
      · simp [scanFeatures, h1, h2, ih]

theorem parseToken_iset (ign : Bool) (cfg : CompilerOptions) (t : List Char)
    (c : CompilerOptions) (h : parseToken ign cfg t = some c) :
    c.instruction_set = cfg.instruction_set := by
  unfold parseToken at h
  split_ifs at h
  any_goals (injection h with h; subst h; rfl)
  split at h
  · injection h with h; subst h; rfl
  · exact Option.noConfusion h

theorem parseToken_debug (ign : Bool) (cfg : CompilerOptions) (t : List Char)
    (c : CompilerOptions) (h : parseToken ign cfg t = some c)
    (hne : t ≠ str "--debuggable") :
    c.debuggable = cfg.debuggable := by
  unfold parseToken at h
  split_ifs at h with h1 h2 h3 h4 h5
  all_goals try exact absurd h1 hne
  any_goals (injection h with h; subst h; rfl)
  split at h
  · injection h with h; subst h; rfl
  · exact Option.noConfusion h

theorem parseToken_some_of_not_fatal (cfg : CompilerOptions) (t : List Char)
    (h : tokenFatal t = false) : (parseToken true cfg t).isSome = true := by
  unfold parseToken
  unfold tokenFatal at h
  split_ifs with h1 h2 h3 h4 h5
  any_goals rfl
  all_goals try exact absurd rfl h5
  split
  · rfl
  next hd =>
    rw [h4, hd] at h
    simp at h

theorem parseToken_special (cfg : CompilerOptions) (t : List Char)
    (h : specialTok t = true) : parseToken true cfg t = some cfg := by
  simp only [specialTok, Bool.or_eq_true] at h
  have hrest : ∃ r, t = pfxVariant ++ r ∨ t = pfxFeatures ++ r := by
    rcases h with h | h
    · exact ⟨t.drop pfxVariant.length, Or.inl (hasPfx_drop _ _ h)⟩
    · exact ⟨t.drop pfxFeatures.length, Or.inr (hasPfx_drop _ _ h)⟩
  obtain ⟨r, hr⟩ := hrest
  have h1 : t ≠ str "--debuggable" := by
    rcases hr with hr | hr <;> subst hr <;> intro he <;>
      have := congrArg List.length he <;> simp [pfxVariant, pfxFeatures, str] at this
  have h2 : t ≠ str "--generate-debug-info" := by
    rcases hr with hr | hr <;> subst hr <;> intro he <;>
      have := congrArg List.length he <;> simp [pfxVariant, pfxFeatures, str] at this
  have h3 : t ≠ str "--pic" := by
    rcases hr with hr | hr <;> subst hr <;> intro he <;>
      have := congrArg List.length he <;> simp [pfxVariant, pfxFeatures, str] at this
  have h4 : hasPfx pfxInline t = false := by
    rcases hr with hr | hr <;> subst hr <;>
      rw [hasPfx_append_of_le _ _ _ (by decide)] <;> decide
  simp [parseToken, h1, h2, h3, h4]

theorem parseBaselineTokens_iset (ign : Bool) (cfg : CompilerOptions)
    (ts : List (List Char)) (c : CompilerOptions)
    (h : parseBaselineTokens ign cfg ts = some c) :
    c.instruction_set = cfg.instruction_set := by
  induction ts generalizing cfg with
  | nil => injection h with h; subst h; rfl
  | cons t ts ih =>
    unfold parseBaselineTokens at h
    cases ht : parseToken ign cfg t with
    | none => rw [ht] at h; exact Option.noConfusion h
    | some c1 =>
      rw [ht] at h
      rw [ih c1 h, parseToken_iset ign cfg t c1 ht]

theorem parseBaselineTokens_debug (ign : Bool) (cfg : CompilerOptions)
    (ts : List (List Char)) (c : CompilerOptions)
    (h : parseBaselineTokens ign cfg ts = some c)
    (hne : str "--debuggable" ∉ ts) :
    c.debuggable = cfg.debuggable := by
  induction ts generalizing cfg with
  | nil => injection h with h; subst h; rfl
  | cons t ts ih =>
    unfold parseBaselineTokens at h
    cases ht : parseToken ign cfg t with
    | none => rw [ht] at h; exact Option.noConfusion h
    | some c1 =>
      rw [ht] at h
      have hne1 : t ≠ str "--debuggable" := by
        intro he; exact hne (by simp [he])
      rw [ih c1 h (fun hm => hne (by simp [hm])),
        parseToken_debug ign cfg t c1 ht hne1]

theorem parseBaselineTokens_some_of_no_fatal (cfg : CompilerOptions)
    (ts : List (List Char)) (h : ∀ t ∈ ts, tokenFatal t = false) :
    (parseBaselineTokens true cfg ts).isSome = true := by
  induction ts generalizing cfg with
  | nil => rfl
  | cons t ts ih =>
    unfold parseBaselineTokens
    cases ht : parseToken true cfg t with
    | none =>
      have hs := parseToken_some_of_not_fatal cfg t (h t (by simp))
      rw [ht] at hs
      simp at hs
    | some c1 => exact ih c1 fun x hx => h x (by simp [hx])

theorem parseBaselineTokens_all_special (cfg : CompilerOptions)
    (ts : List (List Char)) (h : ∀ t ∈ ts, specialTok t = true) :
    parseBaselineTokens true cfg ts = some cfg := by
  induction ts with
  | nil => rfl
  | cons t ts ih =>
    unfold parseBaselineTokens
    rw [parseToken_special cfg t (h t (by simp))]
    exact ih fun x hx => h x (by simp [hx])

theorem scanFeatures_ok_of_default (env : FeaturesEnv) (isa : InstructionSet)
    (hdef : (env.fromVariant isa (str "default")).isSome = true)
    (ts : List (List Char)) (acc : Option FeatureSet) :
    ∃ a, scanFeatures env isa ts acc = .ok a := by
  induction ts generalizing acc with
  | nil => exact ⟨acc, rfl⟩
  | cons t ts ih =>
    by_cases h1 : hasPfx pfxVariant t = true
    · simpa [scanFeatures, h1] using ih _
    · by_cases h2 : hasPfx pfxFeatures t = true
      · simp only [scanFeatures, h1, h2, if_false, if_true]
        cases hacc : (if acc.isNone = true then env.fromVariant isa (str "default") else acc) with
        | none =>
          exfalso
          cases acc with
          | none =>
            simp only [Option.isNone_none, if_true] at hacc
            rw [hacc] at hdef
            simp at hdef
          | some fs => simp at hacc
        | some fs => simpa using ih _
      · simpa [scanFeatures, h1, h2] using ih _

theorem postParse_iset (rt : Runtime) (c : CompilerOptions) :
    (postParse rt c).instruction_set = c.instruction_set := by
  unfold postParse
  cases hc : c.debuggable <;> simp [hc]

theorem postParse_pic (rt : Runtime) (c : CompilerOptions) :
    (postParse rt c).use_position_independent_code = false := by
  unfold postParse
  cases hc : c.debuggable <;> simp [hc]

theorem postParse_debug (rt : Runtime) (c : CompilerOptions) :
    (postParse rt c).debuggable = (c.debuggable || rt.isJavaDebuggable) := by
  unfold postParse
  cases hc : c.debuggable with
  | true => simp [hc]
  | false => simp [hc]

theorem installFeatures_features (env : FeaturesEnv) (rt : Runtime)
    (cfg3 : CompilerOptions) (acc : Option FeatureSet) :
    (installFeatures env rt cfg3 acc).instruction_set_features =
      some (acc.getD env.fromCppDefines) := rfl

theorem installFeatures_iset (env : FeaturesEnv) (rt : Runtime)
    (cfg3 : CompilerOptions) (acc : Option FeatureSet) :
    (installFeatures env rt cfg3 acc).instruction_set = cfg3.instruction_set := rfl

theorem installFeatures_pic (env : FeaturesEnv) (rt : Runtime)
    (cfg3 : CompilerOptions) (acc : Option FeatureSet) :
    (installFeatures env rt cfg3 acc).use_position_independent_code =
      cfg3.use_position_independent_code := rfl

theorem installFeatures_debug (env : FeaturesEnv) (rt : Runtime)
    (cfg3 : CompilerOptions) (acc : Option FeatureSet) :
    (installFeatures env rt cfg3 acc).debuggable = cfg3.debuggable := rfl

theorem resolve_eq_ok (env : FeaturesEnv) (rt : Runtime) (cfg0 cfgP : CompilerOptions)
    (acc : Option FeatureSet)
    (hp : parseBaselineTokens true (setInlineDefault cfg0) rt.compilerOptions = some cfgP)
    (hd : isaDcheckOk (postParse rt cfgP) rt = true)
    (hs : scanFeatures env (postParse rt cfgP).instruction_set rt.compilerOptions none = .ok acc) :
    ParseCompilerOptions env rt cfg0 = .ok (installFeatures env rt (postParse rt cfgP) acc) := by
  unfold ParseCompilerOptions
  rw [hp]
  simp only [hd, if_true]
  rw [hs]

theorem resolve_ok_inv (env : FeaturesEnv) (rt : Runtime) (cfg0 cfg' : CompilerOptions)
    (h : ParseCompilerOptions env rt cfg0 = .ok cfg') :
    ∃ cfgP acc,
      parseBaselineTokens true (setInlineDefault cfg0) rt.compilerOptions = some cfgP ∧
      isaDcheckOk (postParse rt cfgP) rt = true ∧
      scanFeatures env (postParse rt cfgP).instruction_set rt.compilerOptions none = .ok acc ∧
      cfg' = installFeatures env rt (postParse rt cfgP) acc := by
  unfold ParseCompilerOptions at h
  cases hp : parseBaselineTokens true (setInlineDefault cfg0) rt.compilerOptions with
  | none =>
    simp only [hp] at h
    exact Except.noConfusion h
  | some cfgP =>
    simp only [hp] at h
    by_cases hd : isaDcheckOk (postParse rt cfgP) rt = true
    · rw [if_pos hd] at h
      cases hs : scanFeatures env (postParse rt cfgP).instruction_set rt.compilerOptions none with
      | error e => rw [hs] at h; exact Except.noConfusion h
      | ok acc =>
        rw [hs] at h
        injection h with h
        exact ⟨cfgP, acc, rfl, hd, hs, h.symm⟩
    · rw [if_neg hd] at h; exact Except.noConfusion h

theorem scanFeatures_error_eq (env : FeaturesEnv) (isa : InstructionSet)
    (ts : List (List Char)) (acc : Option FeatureSet) (e : ResolveError)
    (h : scanFeatures env isa ts acc = .error e) : e = ResolveError.nullFeatures := by
  induction ts generalizing acc with
  | nil => exact Except.noConfusion h
  | cons t ts ih =>
    by_cases h1 : hasPfx pfxVariant t = true
    · simp only [scanFeatures, h1, if_true] at h
      exact ih _ h
    · by_cases h2 : hasPfx pfxFeatures t = true
      · simp only [scanFeatures, h1, h2, if_false, if_true] at h
        cases hacc : (if acc.isNone = true then env.fromVariant isa (str "default") else acc) with
        | none =>
          rw [hacc] at h
          injection h with h
          exact h.symm
        | some fs =>
          rw [hacc] at h
          exact ih _ h
      · simp only [scanFeatures, h1, h2, if_false] at h
        exact ih _ h

/-- C5: for every input token sequence, after each completed run of the
configuration resolver, whether at facade creation or at a configuration
update, the configuration holds use_position_independent_code = false,
regardless of any value the tokens requested. -/
theorem C5_use_pic_always_false (env : FeaturesEnv) (rt : Runtime)
    (cfg0 cfg' : CompilerOptions) (jc0 jc' : JitCompiler) :
    (ParseCompilerOptions env rt cfg0 = .ok cfg' →
      cfg'.use_position_independent_code = false) ∧
    (JitCompiler.create env rt = .ok jc' →
      jc'.compiler_options.use_position_independent_code = false) ∧
    (jit_update_options env rt jc0 = .ok jc' →
      jc'.compiler_options.use_position_independent_code = false) := by
  have core : ∀ c0 c1 : CompilerOptions, ParseCompilerOptions env rt c0 = .ok c1 →
      c1.use_position_independent_code = false := by
    intro c0 c1 h
    obtain ⟨cfgP, acc, hp, hd, hs, hout⟩ := resolve_ok_inv env rt c0 c1 h
    rw [hout, installFeatures_pic, postParse_pic]
  refine ⟨core cfg0 cfg', ?_, ?_⟩
  · intro h
    unfold JitCompiler.create at h
    cases hr : ParseCompilerOptions env rt (initialConfig rt.runtimeISA) with
    | error e => rw [hr] at h; exact Except.noConfusion h
    | ok cfg =>
      rw [hr] at h
      injection h with h
      have hco := core _ _ hr
      rw [← h]
      exact hco
  · intro h
    unfold jit_update_options at h
    cases hr : ParseCompilerOptions env rt jc0.compiler_options with
    | error e => rw [hr] at h; exact Except.noConfusion h
    | ok cfg =>
      rw [hr] at h
      injection h with h
      have hco := core _ _ hr
      rw [← h]
      exact hco

/-- Witness for C5 at a concrete input that requests position independent
code through the tokens. -/
theorem C5_use_pic_always_false_witness :
    (ParseCompilerOptions sampleEnv rtPic (initialConfig InstructionSet.x86_64) = .ok cfgPic →
      cfgPic.use_position_independent_code = false) ∧
    (ParseCompilerOptions sampleEnv rtPic (initialConfig InstructionSet.x86_64) = .ok cfgPic) ∧
    cfgPic.use_position_independent_code = false := by
  have h := C5_use_pic_always_false sampleEnv rtPic (initialConfig InstructionSet.x86_64)
    cfgPic jcDefault jcDefault
  exact ⟨h.1, by decide, h.1 (by decide)⟩

/-- C9: the resolver invokes the structured baseline parser with unrecognized
token tolerance fixed on, so a merely unrecognized token never by itself
reaches the fatal process terminating parse failure path: whenever no token
is malformed for a recognized key, the resolver does not return the fatal
parse error. -/
theorem C9_unrecognized_never_fatal (env : FeaturesEnv) (rt : Runtime)
    (cfg0 : CompilerOptions)
    (h : ∀ t ∈ rt.compilerOptions, tokenFatal t = false) :
    ParseCompilerOptions env rt cfg0 ≠ .error .fatalParse := by
  have hp := parseBaselineTokens_some_of_no_fatal (setInlineDefault cfg0) rt.compilerOptions h
  obtain ⟨c, hc⟩ := Option.isSome_iff_exists.mp hp
  unfold ParseCompilerOptions
  simp only [hc]
  by_cases hd : isaDcheckOk (postParse rt c) rt = true
  · rw [if_pos hd]
    cases hs : scanFeatures env (postParse rt c).instruction_set rt.compilerOptions none with
    | error e =>
      have he := scanFeatures_error_eq env _ _ _ e hs
      subst he
      intro hcon
      injection hcon with hcon
      exact ResolveError.noConfusion hcon
    | ok acc =>
      intro hcon
      exact Except.noConfusion hcon
  · rw [if_neg hd]
    intro hcon
    injection hcon with hcon
    exact ResolveError.noConfusion hcon

/-- Witness for C9 at a concrete input holding an unrecognized token and a
malformed variant token. -/
theorem C9_unrecognized_never_fatal_witness :
    (∀ t ∈ rtUnknownTok.compilerOptions, tokenFatal t = false) ∧
    ParseCompilerOptions sampleEnv rtUnknownTok (initialConfig InstructionSet.x86) ≠
      .error .fatalParse :=
  ⟨by decide,
   C9_unrecognized_never_fatal sampleEnv rtUnknownTok (initialConfig InstructionSet.x86)
     (by decide)⟩

/-- C10: every completed resolver run leaves a non null feature set installed;
in particular, whenever the token scan ends without a successfully built
feature set, the host build detected capabilities are installed as the
fallback. -/
theorem C10_features_fallback (env : FeaturesEnv) (rt : Runtime)
    (cfg0 cfg' : CompilerOptions)
    (h : ParseCompilerOptions env rt cfg0 = .ok cfg') :
    cfg'.instruction_set_features.isSome = true ∧
    (scanFeatures env cfg'.instruction_set rt.compilerOptions none = .ok none →
      cfg'.instruction_set_features = some env.fromCppDefines) := by
  obtain ⟨cfgP, acc, hp, hd, hs, hout⟩ := resolve_ok_inv env rt cfg0 cfg' h
  constructor
  · rw [hout, installFeatures_features]
    rfl
  · intro hscan
    have hiset : cfg'.instruction_set = (postParse rt cfgP).instruction_set := by
      rw [hout, installFeatures_iset]
    rw [hiset, hs] at hscan
    injection hscan with hacc
    rw [hout, installFeatures_features, hacc]
    rfl

/-- Witness for C10 at a concrete input whose only relevant token is a
malformed variant token, so every contribution is dropped and the fallback
fires. -/
theorem C10_features_fallback_witness :
    (ParseCompilerOptions sampleEnv rtAllMalformed (initialConfig InstructionSet.x86) =
      .ok cfgAllMalformed) ∧
    cfgAllMalformed.instruction_set_features.isSome = true ∧
    (scanFeatures sampleEnv cfgAllMalformed.instruction_set rtAllMalformed.compilerOptions none =
      .ok none →
      cfgAllMalformed.instruction_set_features = some sampleEnv.fromCppDefines) :=
  ⟨by decide,
   C10_features_fallback sampleEnv rtAllMalformed (initialConfig InstructionSet.x86)
     cfgAllMalformed (by decide)⟩

/-- Counterexample to C1: with the tokens of rtC1, the first token is a valid
variant token whose contribution (the silvermont baseline) is accepted, as the
first conjunct shows; yet after the later malformed features token the final
resolved feature set is the host build fallback, which does not retain that
contribution. -/
theorem C1_counterexample :
    scanFeatures sampleEnv InstructionSet.x86 [str "--instruction-set-variant=silvermont"] none =
      .ok (some { variant := str "silvermont", flags := [] }) ∧
    (ParseCompilerOptions sampleEnv rtC1 (initialConfig InstructionSet.x86)).map
      (fun c => c.instruction_set_features) =
      .ok (some { variant := str "host", flags := [] }) ∧
    ({ variant := str "host", flags := [] } : FeatureSet).variant ≠ str "silvermont" := by
  decide

/-- C1 amended: every malformed variant or features token is dropped and the
scan continues, but the rollback is not limited to the contribution of that
token: processing a malformed token resets the accumulated feature set to
null, discarding all contributions accepted from earlier tokens; a later valid
features token rebuilds from the implicit default baseline, and a null
accumulator at scan end falls back to the host build capabilities. -/
theorem C1_amended_malformed_resets (env : FeaturesEnv) (isa : InstructionSet)
    (acc : Option FeatureSet) (ts : List (List Char)) (v x : List Char) (fs : FeatureSet)
    (hv : env.fromVariant isa v = none)
    (hx : env.addFeatures fs x = none) :
    scanFeatures env isa ((pfxVariant ++ v) :: ts) acc = scanFeatures env isa ts none ∧
    scanFeatures env isa ((pfxFeatures ++ x) :: ts) (some fs) = scanFeatures env isa ts none := by
  constructor
  · simp [scanFeatures, hasPfx_self_append, drop_len_append, hv]
  · have h1 : hasPfx pfxVariant (pfxFeatures ++ x) = false := by
      rw [hasPfx_append_of_le _ _ _ (by decide)]
      decide
    simp [scanFeatures, h1, hasPfx_self_append, drop_len_append, hx]

/-- Witness for the amended C1 at concrete inputs: a malformed variant token
and a malformed features token each reset an accumulator holding the accepted
kryo baseline. -/
theorem C1_amended_malformed_resets_witness :
    sampleEnv.fromVariant InstructionSet.x86 (str "bogus") = none ∧
    sampleEnv.addFeatures { variant := str "kryo", flags := [] } (str "badfeat") = none ∧
    scanFeatures sampleEnv InstructionSet.x86 [pfxVariant ++ str "bogus"]
      (some { variant := str "kryo", flags := [] }) =
      scanFeatures sampleEnv InstructionSet.x86 [] none ∧
    scanFeatures sampleEnv InstructionSet.x86 [pfxFeatures ++ str "badfeat"]
      (some { variant := str "kryo", flags := [] }) =
      scanFeatures sampleEnv InstructionSet.x86 [] none :=
  ⟨by decide, by decide,
   (C1_amended_malformed_resets sampleEnv InstructionSet.x86
     (some { variant := str "kryo", flags := [] }) [] (str "bogus") (str "badfeat")
     { variant := str "kryo", flags := [] } (by decide) (by decide)).1,
   (C1_amended_malformed_resets sampleEnv InstructionSet.x86
     (some { variant := str "kryo", flags := [] }) [] (str "bogus") (str "badfeat")
     { variant := str "kryo", flags := [] } (by decide) (by decide)).2⟩

/-- Counterexample to C4: starting from a creation on a live debuggable host,
an update run on a host whose live debuggability has dropped to false, with no
debuggable token, leaves the flag true: the resolved value does not equal the
live host state at the moment of that resolution. -/
theorem C4_counterexample :
    (((JitCompiler.create sampleEnv rtDebugOn).toOption.bind fun jc =>
        (jit_update_options sampleEnv rtDebugOff jc).toOption).map fun jc =>
          jc.compiler_options.debuggable) = some true ∧
    rtDebugOff.isJavaDebuggable = false ∧
    str "--debuggable" ∉ rtDebugOff.compilerOptions := by
  decide

/-- C4 amended: after a resolver run the debuggable flag is the disjunction of
the value the structured parse produced and the live host state, so a parse
that set the flag true is never overridden; when no debuggable token is
present the parse leaves the flag at the held configuration value, hence a
run from a freshly constructed configuration inherits exactly the live host
state, while an in place rerun keeps a true flag from an earlier run even if
the host state has dropped back to false. -/
theorem C4_amended_debuggable (env : FeaturesEnv) (rt : Runtime)
    (cfg0 cfgP cfg' : CompilerOptions)
    (hp : parseBaselineTokens true (setInlineDefault cfg0) rt.compilerOptions = some cfgP)
    (h : ParseCompilerOptions env rt cfg0 = .ok cfg') :
    cfg'.debuggable = (cfgP.debuggable || rt.isJavaDebuggable) ∧
    (str "--debuggable" ∉ rt.compilerOptions → cfgP.debuggable = cfg0.debuggable) := by
  obtain ⟨cfgP2, acc, hp2, hd, hs, hout⟩ := resolve_ok_inv env rt cfg0 cfg' h
  rw [hp] at hp2
  injection hp2 with hp2
  subst hp2
  constructor
  · rw [hout, installFeatures_debug, postParse_debug]
  · intro habs
    have hpd := parseBaselineTokens_debug true (setInlineDefault cfg0) rt.compilerOptions
      cfgP hp habs
    rw [hpd]
    rfl

/-- Witness for the amended C4: a fresh resolution on a live debuggable host
with no tokens yields debuggable true, the disjunction of the parsed false
and the live true. -/
theorem C4_amended_debuggable_witness :
    parseBaselineTokens true (setInlineDefault (initialConfig InstructionSet.x86))
      rtDebugOn.compilerOptions = some (setInlineDefault (initialConfig InstructionSet.x86)) ∧
    ParseCompilerOptions sampleEnv rtDebugOn (initialConfig InstructionSet.x86) =
      .ok cfgDebugOn ∧
    cfgDebugOn.debuggable =
      ((setInlineDefault (initialConfig InstructionSet.x86)).debuggable ||
        rtDebugOn.isJavaDebuggable) ∧
    (str "--debuggable" ∉ rtDebugOn.compilerOptions →
      (setInlineDefault (initialConfig InstructionSet.x86)).debuggable =
        (initialConfig InstructionSet.x86).debuggable) :=
  ⟨by decide, by decide,
   (C4_amended_debuggable sampleEnv rtDebugOn (initialConfig InstructionSet.x86)
     (setInlineDefault (initialConfig InstructionSet.x86)) cfgDebugOn (by decide) (by decide)).1,
   (C4_amended_debuggable sampleEnv rtDebugOn (initialConfig InstructionSet.x86)
     (setInlineDefault (initialConfig InstructionSet.x86)) cfgDebugOn (by decide) (by decide)).2⟩

theorem scanFeatures_append_ok (env : FeaturesEnv) (isa : InstructionSet)
    (l1 l2 : List (List Char)) (acc a : Option FeatureSet)
    (h : scanFeatures env isa l1 acc = .ok a) :
    scanFeatures env isa (l1 ++ l2) acc = scanFeatures env isa l2 a := by
  rw [scanFeatures_append, h]

theorem isaDcheckOk_of_alias (cfg : CompilerOptions) (rt : Runtime)
    (h : cfg.instruction_set = thumb2Alias rt.runtimeISA) :
    isaDcheckOk cfg rt = true := by
  unfold isaDcheckOk
  unfold thumb2Alias at h
  cases hr : rt.runtimeISA <;> rw [hr] at h <;> simp_all

theorem resolve_iset_after_parse (rt : Runtime) (cfg0 cfgP : CompilerOptions)
    (hp : parseBaselineTokens true (setInlineDefault cfg0) rt.compilerOptions = some cfgP) :
    (postParse rt cfgP).instruction_set = cfg0.instruction_set := by
  rw [postParse_iset,
    parseBaselineTokens_iset true (setInlineDefault cfg0) rt.compilerOptions cfgP hp]
  rfl

/-- Counterexample to C2 as stated: the token sequence of rtTwoFeatures
contains a malformed variant token followed by a valid features token, yet the
resolved feature set is the default baseline overlaid with both feature
strings of the sequence, which differs from the default baseline overlaid with
either single features value. -/
theorem C2_counterexample :
    (ParseCompilerOptions sampleEnv rtTwoFeatures (initialConfig InstructionSet.x86)).map
      (fun c => c.instruction_set_features) =
      .ok (some { variant := str "default", flags := [str "sse4.1", str "div"] }) ∧
    sampleEnv.addFeatures { variant := str "default", flags := [] } (str "sse4.1") =
      some { variant := str "default", flags := [str "sse4.1"] } ∧
    sampleEnv.addFeatures { variant := str "default", flags := [] } (str "div") =
      some { variant := str "default", flags := [str "div"] } ∧
    ({ variant := str "default", flags := [str "sse4.1", str "div"] } : FeatureSet) ≠
      { variant := str "default", flags := [str "sse4.1"] } ∧
    ({ variant := str "default", flags := [str "sse4.1", str "div"] } : FeatureSet) ≠
      { variant := str "default", flags := [str "div"] } := by
  decide

/-- C2 amended: for any token sequence whose only variant or features tokens
are a malformed variant token followed by a single valid features token X,
when the structured parse succeeds and the configured instruction set obeys
the aliasing rule, resolution completes without aborting and the resolved
feature set equals the implicit default baseline for the configured
instruction set overlaid with X. -/
theorem C2_amended_salvage (env : FeaturesEnv) (rt : Runtime) (cfg0 : CompilerOptions)
    (pre mid post : List (List Char)) (v x : List Char) (d dX : FeatureSet)
    (cfgP : CompilerOptions)
    (htoks : rt.compilerOptions =
      pre ++ ((pfxVariant ++ v) :: (mid ++ ((pfxFeatures ++ x) :: post))))
    (hplain : ∀ t ∈ pre ++ mid ++ post, specialTok t = false)
    (hisa : cfg0.instruction_set = thumb2Alias rt.runtimeISA)
    (hv : env.fromVariant cfg0.instruction_set v = none)
    (hd : env.fromVariant cfg0.instruction_set (str "default") = some d)
    (hx : env.addFeatures d x = some dX)
    (hp : parseBaselineTokens true (setInlineDefault cfg0) rt.compilerOptions = some cfgP) :
    ∃ cfg', ParseCompilerOptions env rt cfg0 = .ok cfg' ∧
      cfg'.instruction_set_features = some dX := by
  have hpre : ∀ t ∈ pre, specialTok t = false := fun t ht => hplain t (by simp [ht])
  have hmid : ∀ t ∈ mid, specialTok t = false := fun t ht => hplain t (by simp [ht])
  have hpost : ∀ t ∈ post, specialTok t = false := fun t ht => hplain t (by simp [ht])
  have hi := resolve_iset_after_parse rt cfg0 cfgP hp
  have hdchk := isaDcheckOk_of_alias (postParse rt cfgP) rt (by rw [hi, hisa])
  have hne1 : hasPfx pfxVariant (pfxFeatures ++ x) = false := by
    rw [hasPfx_append_of_le _ _ _ (by decide)]
    decide
  have hscan : scanFeatures env (postParse rt cfgP).instruction_set rt.compilerOptions none =
      .ok (some dX) := by
    rw [hi, htoks]
    rw [scanFeatures_append_ok env cfg0.instruction_set pre _ none none
      (scanFeatures_skip env cfg0.instruction_set pre none hpre)]
    have hstep1 : scanFeatures env cfg0.instruction_set
        ((pfxVariant ++ v) :: (mid ++ ((pfxFeatures ++ x) :: post))) none =
        scanFeatures env cfg0.instruction_set (mid ++ ((pfxFeatures ++ x) :: post)) none := by
      simp [scanFeatures, hasPfx_self_append, drop_len_append, hv]
    rw [hstep1]
    rw [scanFeatures_append_ok env cfg0.instruction_set mid _ none none
      (scanFeatures_skip env cfg0.instruction_set mid none hmid)]
    simp [scanFeatures, hne1, hasPfx_self_append, drop_len_append, hd, hx,
      scanFeatures_skip env cfg0.instruction_set post (some dX) hpost]
  exact ⟨_, resolve_eq_ok env rt cfg0 cfgP (some dX) hp hdchk hscan, by
    rw [installFeatures_features]
    rfl⟩

/-- Witness for the amended C2 on the concrete salvage runtime: an
unrecognized leading token, then a malformed variant token, then a valid
features token yield the default baseline overlaid with that feature. -/
theorem C2_amended_salvage_witness :
    rtSalvage.compilerOptions =
      [str "--frobnicate"] ++
        ((pfxVariant ++ str "bogus") :: ([] ++ ((pfxFeatures ++ str "sse4.1") :: []))) ∧
    sampleEnv.fromVariant (initialConfig InstructionSet.x86).instruction_set (str "bogus") =
      none ∧
    (∃ cfg', ParseCompilerOptions sampleEnv rtSalvage (initialConfig InstructionSet.x86) =
        .ok cfg' ∧
      cfg'.instruction_set_features =
        some { variant := str "default", flags := [str "sse4.1"] }) :=
  ⟨by decide, by decide,
   C2_amended_salvage sampleEnv rtSalvage (initialConfig InstructionSet.x86)
     [str "--frobnicate"] [] [] (str "bogus") (str "sse4.1")
     { variant := str "default", flags := [] }
     { variant := str "default", flags := [str "sse4.1"] }
     (setInlineDefault (initialConfig InstructionSet.x86))
     (by decide) (by decide) (by decide) (by decide) (by decide) (by decide) (by decide)⟩

theorem resolve_exact_special (env : FeaturesEnv) (rt : Runtime) (cfg0 : CompilerOptions)
    (hall : ∀ t ∈ rt.compilerOptions, specialTok t = true)
    (hisa : cfg0.instruction_set = thumb2Alias rt.runtimeISA)
    (acc : Option FeatureSet)
    (hscan : scanFeatures env cfg0.instruction_set rt.compilerOptions none = .ok acc) :
    ParseCompilerOptions env rt cfg0 =
      .ok (installFeatures env rt (postParse rt (setInlineDefault cfg0)) acc) := by
  have hp : parseBaselineTokens true (setInlineDefault cfg0) rt.compilerOptions =
      some (setInlineDefault cfg0) :=
    parseBaselineTokens_all_special _ _ hall
  have hi := resolve_iset_after_parse rt cfg0 _ hp
  have hdchk := isaDcheckOk_of_alias (postParse rt (setInlineDefault cfg0)) rt
    (by rw [hi, hisa])
  have hscan1 : scanFeatures env (postParse rt (setInlineDefault cfg0)).instruction_set
      rt.compilerOptions none = .ok acc := by
    rw [hi]
    exact hscan
  exact resolve_eq_ok env rt cfg0 _ acc hp hdchk hscan1

/-- C3: the resolved feature set has exactly the three shapes of the spec. For
a token list of exactly a features token X, it is the default baseline
overlaid with X; for a token list of exactly a variant token V followed by a
features token X, it is the baseline of V overlaid with X; and for a token
list with no variant or features tokens, it is the host build detected
capabilities. -/
theorem C3_feature_shapes (env : FeaturesEnv) (cfg0 : CompilerOptions)
    (jd : Bool) (img : List Char) (ria : InstructionSet) (rt3 : Runtime)
    (v x : List Char) (d dX bV bVX : FeatureSet)
    (hisa : cfg0.instruction_set = thumb2Alias ria)
    (hd : env.fromVariant cfg0.instruction_set (str "default") = some d)
    (hdx : env.addFeatures d x = some dX)
    (hbv : env.fromVariant cfg0.instruction_set v = some bV)
    (hbvx : env.addFeatures bV x = some bVX)
    (hrt3 : rt3.runtimeISA = ria)
    (hplain3 : ∀ t ∈ rt3.compilerOptions, specialTok t = false)
    (hparse3 : ∃ cfgP,
      parseBaselineTokens true (setInlineDefault cfg0) rt3.compilerOptions = some cfgP) :
    (∃ cfg', ParseCompilerOptions env ⟨[pfxFeatures ++ x], jd, img, ria⟩ cfg0 = .ok cfg' ∧
      cfg'.instruction_set_features = some dX) ∧
    (∃ cfg', ParseCompilerOptions env ⟨[pfxVariant ++ v, pfxFeatures ++ x], jd, img, ria⟩
        cfg0 = .ok cfg' ∧
      cfg'.instruction_set_features = some bVX) ∧
    (∃ cfg', ParseCompilerOptions env rt3 cfg0 = .ok cfg' ∧
      cfg'.instruction_set_features = some env.fromCppDefines) := by
  have hne1 : hasPfx pfxVariant (pfxFeatures ++ x) = false := by
    rw [hasPfx_append_of_le _ _ _ (by decide)]
    decide
  have hspecF : specialTok (pfxFeatures ++ x) = true := by
    simp [specialTok, hasPfx_self_append]
  have hspecV : specialTok (pfxVariant ++ v) = true := by
    simp [specialTok, hasPfx_self_append]
  refine ⟨?_, ?_, ?_⟩
  · have hscan1 : scanFeatures env cfg0.instruction_set [pfxFeatures ++ x] none =
        .ok (some dX) := by
      simp [scanFeatures, hne1, hasPfx_self_append, drop_len_append, hd, hdx]
    refine ⟨_, resolve_exact_special env ⟨[pfxFeatures ++ x], jd, img, ria⟩ cfg0 ?_ hisa
      (some dX) hscan1, by rw [installFeatures_features]; rfl⟩
    intro t ht
    simp only [List.mem_singleton] at ht
    subst ht
    exact hspecF
  · have hscan2 : scanFeatures env cfg0.instruction_set
        [pfxVariant ++ v, pfxFeatures ++ x] none = .ok (some bVX) := by
      simp [scanFeatures, hne1, hasPfx_self_append, drop_len_append, hbv, hbvx]
    refine ⟨_, resolve_exact_special env ⟨[pfxVariant ++ v, pfxFeatures ++ x], jd, img, ria⟩
      cfg0 ?_ hisa (some bVX) hscan2, by rw [installFeatures_features]; rfl⟩
    intro t ht
    simp only [List.mem_cons, List.mem_singleton] at ht
    rcases ht with ht | ht | ht
    · subst ht; exact hspecV
    · subst ht; exact hspecF
    · exact absurd ht (List.not_mem_nil t)
  · obtain ⟨cfgP3, hp3⟩ := hparse3
    have hi3 := resolve_iset_after_parse rt3 cfg0 cfgP3 hp3
    have hdchk3 := isaDcheckOk_of_alias (postParse rt3 cfgP3) rt3 (by rw [hi3, hisa, hrt3])
    have hscan3 : scanFeatures env (postParse rt3 cfgP3).instruction_set
        rt3.compilerOptions none = .ok none :=
      scanFeatures_skip env _ rt3.compilerOptions none hplain3
    exact ⟨_, resolve_eq_ok env rt3 cfg0 cfgP3 none hp3 hdchk3 hscan3, by
      rw [installFeatures_features]
      rfl⟩

/-- Witness for C3 at concrete inputs: the silvermont variant with the sse4.1
feature on an x86 host, and the empty token list for the host detected
shape. -/
theorem C3_feature_shapes_witness :
    ((initialConfig InstructionSet.x86).instruction_set =
      thumb2Alias InstructionSet.x86) ∧
    (∃ cfg', ParseCompilerOptions sampleEnv
        ⟨[pfxFeatures ++ str "sse4.1"], false, str "/x", InstructionSet.x86⟩
        (initialConfig InstructionSet.x86) = .ok cfg' ∧
      cfg'.instruction_set_features =
        some { variant := str "default", flags := [str "sse4.1"] }) ∧
    (∃ cfg', ParseCompilerOptions sampleEnv
        ⟨[pfxVariant ++ str "silvermont", pfxFeatures ++ str "sse4.1"], false, str "/x",
          InstructionSet.x86⟩
        (initialConfig InstructionSet.x86) = .ok cfg' ∧
      cfg'.instruction_set_features =
        some { variant := str "silvermont", flags := [str "sse4.1"] }) ∧
    (∃ cfg', ParseCompilerOptions sampleEnv rtDebugOff (initialConfig InstructionSet.x86) =
        .ok cfg' ∧
      cfg'.instruction_set_features = some sampleEnv.fromCppDefines) := by
  have h := C3_feature_shapes sampleEnv (initialConfig InstructionSet.x86) false (str "/x")
    InstructionSet.x86 rtDebugOff (str "silvermont") (str "sse4.1")
    { variant := str "default", flags := [] }
    { variant := str "default", flags := [str "sse4.1"] }
    { variant := str "silvermont", flags := [] }
    { variant := str "silvermont", flags := [str "sse4.1"] }
    (by decide) (by decide) (by decide) (by decide) (by decide) (by decide) (by decide)
    ⟨setInlineDefault (initialConfig InstructionSet.x86), by decide⟩
  exact ⟨by decide, h.1, h.2.1, h.2.2⟩

/-- C6: for every token sequence whose baseline structured parse succeeds,
given that the held instruction set obeys the thumb2 aliasing of the host ISA
and the implicit default baseline is constructible, resolution runs to
completion without aborting, the internal instruction set assertion passes,
and the resolved instruction set equals the host runtime ISA under the thumb2
aliasing rule. -/
theorem C6_resolution_completes (env : FeaturesEnv) (rt : Runtime)
    (cfg0 cfgP : CompilerOptions)
    (hisa : cfg0.instruction_set = thumb2Alias rt.runtimeISA)
    (hp : parseBaselineTokens true (setInlineDefault cfg0) rt.compilerOptions = some cfgP)
    (hdef : (env.fromVariant cfg0.instruction_set (str "default")).isSome = true) :
    ∃ cfg', ParseCompilerOptions env rt cfg0 = .ok cfg' ∧
      isaDcheckOk cfg' rt = true ∧
      cfg'.instruction_set = thumb2Alias rt.runtimeISA := by
  have hi := resolve_iset_after_parse rt cfg0 cfgP hp
  have hdchk := isaDcheckOk_of_alias (postParse rt cfgP) rt (by rw [hi, hisa])
  have hdef2 : (env.fromVariant (postParse rt cfgP).instruction_set (str "default")).isSome =
      true := by
    rw [hi]
    exact hdef
  obtain ⟨acc, hs⟩ := scanFeatures_ok_of_default env _ hdef2 rt.compilerOptions none
  refine ⟨_, resolve_eq_ok env rt cfg0 cfgP acc hp hdchk hs, ?_, ?_⟩
  · refine isaDcheckOk_of_alias _ rt ?_
    rw [installFeatures_iset, hi, hisa]
  · rw [installFeatures_iset, hi, hisa]

/-- Witness for C6 on a 32 bit arm host with no tokens: resolution completes
and the resolved instruction set is thumb2. -/
theorem C6_resolution_completes_witness :
    ((initialConfig InstructionSet.arm).instruction_set = thumb2Alias rtArm.runtimeISA) ∧
    (parseBaselineTokens true (setInlineDefault (initialConfig InstructionSet.arm))
      rtArm.compilerOptions = some (setInlineDefault (initialConfig InstructionSet.arm))) ∧
    (∃ cfg', ParseCompilerOptions sampleEnv rtArm (initialConfig InstructionSet.arm) =
        .ok cfg' ∧
      isaDcheckOk cfg' rtArm = true ∧
      cfg'.instruction_set = thumb2Alias rtArm.runtimeISA) :=
  ⟨by decide, by decide,
   C6_resolution_completes sampleEnv rtArm (initialConfig InstructionSet.arm)
     (setInlineDefault (initialConfig InstructionSet.arm)) (by decide) (by decide) (by decide)⟩

/-- C7: every compile call invokes the backend exactly once, requesting the
optimizing tier (the baseline flag is false) with the code cache and the held
diagnostics log passed through, then runs the arena trim unconditionally on
the same thread, records both phase durations into the process wide timing
aggregator, and returns exactly the backend verdict. -/
theorem C7_compile_behavior (be : Backend) (jc : JitCompiler) (rt : RuntimeJit)
    (self : Thread) (m : Method) (osr : Bool) :
    (CompileMethod be jc rt self m osr).1 =
      be.jitCompile self rt.jitCodeCache m false osr jc.jit_logger ∧
    (CompileMethod be jc rt self m osr).2 =
      [JitEvent.jitCompileCall self rt.jitCodeCache m false osr jc.jit_logger,
       JitEvent.trimMapsCall self rt.jitArenaPool,
       JitEvent.addTimingLoggerCall [str "Compiling", str "TrimMaps"]] ∧
    ((CompileMethod be jc rt self m osr).2.filter isBackendCall).length = 1 :=
  ⟨rfl, rfl, rfl⟩

/-- C8: a facade built by create holds a backend binding with artifact
deduplication disabled, so that in the modelled code cache two byte identical
compilation outputs occupy two distinct, independently present entries. -/
theorem C8_dedupe_disabled (env : FeaturesEnv) (rt : Runtime) (jc : JitCompiler)
    (entries : List (List Nat)) (code : List Nat)
    (h : JitCompiler.create env rt = .ok jc) :
    jc.compiler_driver.dedupeEnabled = false ∧
    (cacheInsert jc.compiler_driver.dedupeEnabled entries code).2 = entries.length ∧
    (cacheInsert jc.compiler_driver.dedupeEnabled
      (cacheInsert jc.compiler_driver.dedupeEnabled entries code).1 code).2 =
      entries.length + 1 ∧
    (cacheInsert jc.compiler_driver.dedupeEnabled
      (cacheInsert jc.compiler_driver.dedupeEnabled entries code).1 code).1.length =
      entries.length + 2 := by
  have hdd : jc.compiler_driver.dedupeEnabled = false := by
    unfold JitCompiler.create at h
    cases hr : ParseCompilerOptions env rt (initialConfig rt.runtimeISA) with
    | error e => rw [hr] at h; exact Except.noConfusion h
    | ok cfg =>
      rw [hr] at h
      injection h with h
      rw [← h]
  refine ⟨hdd, ?_, ?_, ?_⟩ <;> simp [cacheInsert, hdd]

/-- Witness for C8: the facade created on the concrete debuggable runtime has
deduplication off, and two inserts of identical bytes occupy entries zero and
one of an initially empty cache. -/
theorem C8_dedupe_disabled_witness :
    JitCompiler.create sampleEnv rtDebugOn = .ok jcDebugOn ∧
    jcDebugOn.compiler_driver.dedupeEnabled = false ∧
    (cacheInsert jcDebugOn.compiler_driver.dedupeEnabled [] [1, 2, 3]).2 = 0 ∧
    (cacheInsert jcDebugOn.compiler_driver.dedupeEnabled
      (cacheInsert jcDebugOn.compiler_driver.dedupeEnabled [] [1, 2, 3]).1 [1, 2, 3]).2 = 1 ∧
    (cacheInsert jcDebugOn.compiler_driver.dedupeEnabled
      (cacheInsert jcDebugOn.compiler_driver.dedupeEnabled [] [1, 2, 3]).1
      [1, 2, 3]).1.length = 2 := by
  have h := C8_dedupe_disabled sampleEnv rtDebugOn jcDebugOn [] [1, 2, 3] (by decide)
  exact ⟨by decide, h.1, h.2.1, h.2.2.1, h.2.2.2⟩
